import Mathlib

/-
  Verification development for the PerfTracer library (perf_tracer/tracer.py).

  The tracer state is embedded shallowly:
  - Python floats are modelled as exact rationals ℚ (the spec treats the
    time conversion as exact arithmetic on real numbers).
  - Python dicts are modelled as insertion-ordered association lists; dict
    assignment is insert-or-update, lookup returns the first matching key.
  - Python exceptions are modelled as an Except result paired with the
    state as it stands when the exception is raised (mutations performed
    before a raise are kept, matching Python semantics).
-/

namespace PerfTracer

structure ModuleInfo where
  pid : Int
  module_name : String
deriving DecidableEq

structure TrackInfo where
  module_info : ModuleInfo
  tid : Int
  track_name : String
deriving DecidableEq

def TrackInfo.pid (t : TrackInfo) : Int := t.module_info.pid

def TrackInfo.moduleName (t : TrackInfo) : String := t.module_info.module_name

structure OpenEvent where
  name : String
  ts_us : ℚ
deriving DecidableEq

inductive EventRecord where
  | metaProcess (pid : Int) (name : String)
  | metaThread (pid : Int) (tid : Int) (name : String)
  | beginEvent (pid : Int) (tid : Int) (ts : ℚ) (name : String) (cat : Option String)
  | endEventRec (pid : Int) (tid : Int) (ts : ℚ) (cat : Option String)
  | completeRec (pid : Int) (tid : Int) (ts : ℚ) (dur : ℚ) (name : String) (cat : Option String)
deriving DecidableEq

inductive TracerError where
  | valueError (msg : String)
  | keyError
deriving DecidableEq

def isError {ε α : Type} : Except ε α → Bool
  | Except.error _ => true
  | Except.ok _ => false

/-- First-match lookup in an association list (Python dict lookup). -/
def lookupA {α β : Type} [DecidableEq α] : List (α × β) → α → Option β
  | [], _ => none
  | (k, v) :: rest, a => if k = a then some v else lookupA rest a

/-- Replace the value at an existing key, keeping insertion order. -/
def updateA {α β : Type} [DecidableEq α] : List (α × β) → α → β → List (α × β)
  | [], _, _ => []
  | (k, v) :: rest, a, b => if k = a then (k, b) :: rest else (k, v) :: updateA rest a b

/-- Python dict assignment: update the key in place if present, else append. -/
def insertA {α β : Type} [DecidableEq α] (l : List (α × β)) (a : α) (b : β) : List (α × β) :=
  if (lookupA l a).isSome then updateA l a b else l ++ [(a, b)]

structure TracerState where
  ns_per_cycle : ℚ
  next_tid : Int
  next_pid : Int
  registered_modules : List (String × ModuleInfo)
  registered_tracks : List (String × TrackInfo)
  open_events : List (TrackInfo × List OpenEvent)
  events : List EventRecord
deriving DecidableEq

/-- PerfettoTracer.__init__ : counters start at 1000 (tid) and 100000 (pid). -/
def mkTracer (ns_per_cycle : ℚ) : TracerState :=
  { ns_per_cycle := ns_per_cycle
    next_tid := 1000
    next_pid := 100000
    registered_modules := []
    registered_tracks := []
    open_events := []
    events := [] }

/-- PerfettoTracer._cycles_to_us : cycles * (ns_per_cycle / 1000). -/
def cyclesToUs (s : TracerState) (cycles : ℚ) : ℚ :=
  cycles * (s.ns_per_cycle / 1000)

/-- PerfettoTracer.register_module. -/
def registerModule (s : TracerState) (module_name : String) : ModuleInfo × TracerState :=
  match lookupA s.registered_modules module_name with
  | some m => (m, s)
  | none =>
    let pid := s.next_pid
    let module_info : ModuleInfo := { pid := pid, module_name := module_name }
    (module_info,
      { s with
        next_pid := pid + 1
        registered_modules := insertA s.registered_modules module_name module_info
        events := s.events ++ [EventRecord.metaProcess pid module_name] })

/-- PerfettoTracer.register_track. -/
def registerTrack (s : TracerState) (track_name : String)
    (module_info? : Option ModuleInfo) : TrackInfo × TracerState :=
  let resolved : ModuleInfo × TracerState :=
    match module_info? with
    | none => registerModule s "default"
    | some mi => (mi, s)
  let module_info := resolved.1
  let s1 := resolved.2
  let track_key := module_info.module_name ++ "." ++ track_name
  match lookupA s1.registered_tracks track_key with
  | some t => (t, s1)
  | none =>
    let tid := s1.next_tid
    let track_info : TrackInfo :=
      { module_info := module_info, tid := tid, track_name := track_name }
    (track_info,
      { s1 with
        next_tid := tid + 1
        registered_tracks := insertA s1.registered_tracks track_key track_info
        open_events := insertA s1.open_events track_info []
        events := s1.events ++ [EventRecord.metaThread module_info.pid tid track_name] })

/-- PerfettoTracer.start_event: the Begin record is appended to the log first;
the push onto the per-track stack raises KeyError if the track is unknown. -/
def startEvent (s : TracerState) (track_info : TrackInfo) (ts_cycles : ℚ)
    (event_name : String) (category : Option String) :
    Except TracerError Unit × TracerState :=
  let ts_us := cyclesToUs s ts_cycles
  let s1 := { s with events := s.events ++
      [EventRecord.beginEvent track_info.pid track_info.tid ts_us event_name category] }
  match lookupA s1.open_events track_info with
  | none => (Except.error TracerError.keyError, s1)
  | some stack =>
    let pushed := updateA s1.open_events track_info
      (stack ++ [{ name := event_name, ts_us := ts_us }])
    (Except.ok (), { s1 with open_events := pushed })

/-- PerfettoTracer.end_event. The stack top is the last list element
(Python lists push and pop at the end). -/
def endEvent (s : TracerState) (track_info : TrackInfo) (ts_cycles : ℚ)
    (name : Option String) (category : Option String) :
    Except TracerError Unit × TracerState :=
  match lookupA s.open_events track_info with
  | none =>
    (Except.error (TracerError.valueError
      ("No open events for track " ++ track_info.track_name)), s)
  | some stack =>
    match stack.getLast? with
    | none =>
      (Except.error (TracerError.valueError
        ("No open events for track " ++ track_info.track_name)), s)
    | some open_event =>
      let emit : Except TracerError Unit × TracerState :=
        let ts_us := cyclesToUs s ts_cycles
        (Except.ok (),
          { s with
            events := s.events ++
              [EventRecord.endEventRec track_info.pid track_info.tid ts_us category]
            open_events := updateA s.open_events track_info stack.dropLast })
      match name with
      | some n =>
        if open_event.name ≠ n then
          (Except.error (TracerError.valueError
            ("Expected to close event " ++ open_event.name ++ ", but got " ++ n)), s)
        else emit
      | none => emit

/-- PerfettoTracer.complete_event. -/
def completeEvent (s : TracerState) (track_info : TrackInfo) (start_ts : ℚ)
    (end_ts : Option ℚ) (dur : Option ℚ) (name : String) (category : Option String) :
    Except TracerError Unit × TracerState :=
  let start_us := cyclesToUs s start_ts
  match end_ts, dur with
  | some _, some _ =>
    (Except.error (TracerError.valueError "Provide exactly one of end_ts or dur"), s)
  | none, none =>
    (Except.error (TracerError.valueError "Provide exactly one of end_ts or dur"), s)
  | some e, none =>
    let dur_us := cyclesToUs s e - start_us
    if dur_us < 0 then
      (Except.error (TracerError.valueError
        "Duration is negative; check start/end timestamps."), s)
    else
      (Except.ok (),
        { s with events := s.events ++
            [EventRecord.completeRec track_info.pid track_info.tid start_us dur_us
              name category] })
  | none, some d =>
    let dur_us := cyclesToUs s d
    if dur_us < 0 then
      (Except.error (TracerError.valueError
        "Duration is negative; check start/end timestamps."), s)
    else
      (Except.ok (),
        { s with events := s.events ++
            [EventRecord.completeRec track_info.pid track_info.tid start_us dur_us
              name category] })

/-- PerfettoTracer.record_event: start_event with the first clock reading,
run the guarded work, then end_event with the second clock reading on every
exit path of the guarded region (Python try/finally). The guarded work is
modelled by its outcome; it does not touch tracer state. -/
def recordEvent {ε : Type} (s : TracerState) (track_info : TrackInfo)
    (t1 t2 : ℚ) (name : String) (category : Option String)
    (work : Except ε Unit) : Except (TracerError ⊕ ε) Unit × TracerState :=
  let r1 := startEvent s track_info t1 name category
  match r1.1 with
  | Except.error e => (Except.error (Sum.inl e), r1.2)
  | Except.ok _ =>
    let r2 := endEvent r1.2 track_info t2 none none
    match r2.1 with
    | Except.error e2 => (Except.error (Sum.inl e2), r2.2)
    | Except.ok _ =>
      match work with
      | Except.error w => (Except.error (Sum.inr w), r2.2)
      | Except.ok u => (Except.ok u, r2.2)

inductive Json where
  | null
  | str (s : String)
  | num (q : ℚ)
  | int (n : Int)
  | arr (xs : List Json)
  | obj (members : List (String × Json))

def jsonOfCat : Option String → Json
  | none => Json.null
  | some c => Json.str c

/-- The dict shape each event record holds in PerfettoTracer._events. -/
def encodeEvent : EventRecord → Json
  | EventRecord.metaProcess pid name =>
    Json.obj [("ph", Json.str "M"), ("pid", Json.int pid),
      ("name", Json.str "process_name"), ("args", Json.obj [("name", Json.str name)])]
  | EventRecord.metaThread pid tid name =>
    Json.obj [("ph", Json.str "M"), ("pid", Json.int pid), ("tid", Json.int tid),
      ("name", Json.str "thread_name"), ("args", Json.obj [("name", Json.str name)])]
  | EventRecord.beginEvent pid tid ts name cat =>
    Json.obj [("ph", Json.str "B"), ("pid", Json.int pid), ("tid", Json.int tid),
      ("ts", Json.num ts), ("name", Json.str name), ("cat", jsonOfCat cat)]
  | EventRecord.endEventRec pid tid ts cat =>
    Json.obj [("ph", Json.str "E"), ("pid", Json.int pid), ("tid", Json.int tid),
      ("ts", Json.num ts), ("cat", jsonOfCat cat)]
  | EventRecord.completeRec pid tid ts dur name cat =>
    Json.obj [("ph", Json.str "X"), ("pid", Json.int pid), ("tid", Json.int tid),
      ("ts", Json.num ts), ("dur", Json.num dur), ("name", Json.str name),
      ("cat", jsonOfCat cat)]

/-- PerfettoTracer.save: the document handed to the JSON writer. -/
def save (s : TracerState) (display_time_unit : String) : Json :=
  Json.obj [("traceEvents", Json.arr (s.events.map encodeEvent)),
    ("displayTimeUnit", Json.str display_time_unit)]

def Json.keys : Json → List String
  | Json.obj members => members.map Prod.fst
  | _ => []

def Json.lookupKey : Json → String → Option Json
  | Json.obj members, k => lookupA members k
  | _, _ => none

/-! Association-list lemmas shared by the claim proofs. -/

theorem lookupA_append_of_none {α β : Type} [DecidableEq α] {l1 : List (α × β)}
    (l2 : List (α × β)) {a : α} (h : lookupA l1 a = none) :
    lookupA (l1 ++ l2) a = lookupA l2 a := by
  induction l1 with
  | nil => simp
  | cons p rest ih =>
    obtain ⟨k, v⟩ := p
    by_cases hk : k = a
    · simp [lookupA, hk] at h
    · simp only [lookupA, hk, if_false, List.cons_append] at h ⊢
      exact ih h

theorem lookupA_append_of_some {α β : Type} [DecidableEq α] {l1 : List (α × β)}
    (l2 : List (α × β)) {a : α} {b : β} (h : lookupA l1 a = some b) :
    lookupA (l1 ++ l2) a = some b := by
  induction l1 with
  | nil => simp [lookupA] at h
  | cons p rest ih =>
    obtain ⟨k, v⟩ := p
    by_cases hk : k = a
    · simp only [lookupA, hk, if_pos rfl] at h ⊢
      exact h
    · simp only [lookupA, hk, if_false, List.cons_append] at h ⊢
      exact ih h

theorem lookupA_concat_self {α β : Type} [DecidableEq α] {l : List (α × β)}
    {a : α} (b : β) (h : lookupA l a = none) :
    lookupA (l ++ [(a, b)]) a = some b := by
  rw [lookupA_append_of_none _ h]
  simp [lookupA]

theorem lookupA_updateA_self {α β : Type} [DecidableEq α] (l : List (α × β))
    (a : α) (b : β) :
    lookupA (updateA l a b) a = (lookupA l a).map (fun _ => b) := by
  induction l with
  | nil => simp [lookupA, updateA]
  | cons p rest ih =>
    obtain ⟨k, v⟩ := p
    by_cases hk : k = a
    · simp [lookupA, updateA, hk]
    · simp [lookupA, updateA, hk, ih]

theorem updateA_updateA {α β : Type} [DecidableEq α] (l : List (α × β))
    (a : α) (b c : β) : updateA (updateA l a b) a c = updateA l a c := by
  induction l with
  | nil => simp [updateA]
  | cons p rest ih =>
    obtain ⟨k, v⟩ := p
    by_cases hk : k = a
    · simp [updateA, hk]
    · simp [updateA, hk, ih]

theorem updateA_self_eq {α β : Type} [DecidableEq α] {l : List (α × β)}
    {a : α} {b : β} (h : lookupA l a = some b) : updateA l a b = l := by
  induction l with
  | nil => simp [updateA]
  | cons p rest ih =>
    obtain ⟨k, v⟩ := p
    by_cases hk : k = a
    · subst hk
      simp [lookupA] at h
      simp [updateA, h]
    · simp only [lookupA, hk, if_false] at h
      simp [updateA, hk, ih h]

theorem lookupA_mem {α β : Type} [DecidableEq α] {l : List (α × β)}
    {a : α} {b : β} (h : lookupA l a = some b) : (a, b) ∈ l := by
  induction l with
  | nil => simp [lookupA] at h
  | cons p rest ih =>
    obtain ⟨k, v⟩ := p
    by_cases hk : k = a
    · subst hk
      simp [lookupA] at h
      subst h
      exact List.mem_cons_self _ _
    · simp only [lookupA, hk, if_false] at h
      exact List.mem_cons_of_mem _ (ih h)

theorem insertA_of_none {α β : Type} [DecidableEq α] {l : List (α × β)}
    {a : α} (b : β) (h : lookupA l a = none) : insertA l a b = l ++ [(a, b)] := by
  simp [insertA, h]

/-! C4: the time conversion. -/

/-- C4: for every cycle value c (negative and fractional included) and every
configured scale s, the time conversion returns c * s / 1000; it is a pure
function of the state and the input, so it has no side effects. -/
theorem cyclesToUs_formula (s : TracerState) (c : ℚ) :
    cyclesToUs s c = c * s.ns_per_cycle / 1000 := by
  unfold cyclesToUs
  ring

/-! C9: the saved document. -/

/-- C9: the document built at save time has exactly the two top-level keys
traceEvents and displayTimeUnit; traceEvents is the whole accumulated event
log in emission order (count preserved, no filtering or reordering) and
displayTimeUnit is the requested string — for every tracer state, with no
condition on open events. -/
theorem save_document (s : TracerState) (u : String) :
    (save s u).keys = ["traceEvents", "displayTimeUnit"] ∧
    Json.lookupKey (save s u) "traceEvents"
      = some (Json.arr (s.events.map encodeEvent)) ∧
    Json.lookupKey (save s u) "displayTimeUnit" = some (Json.str u) ∧
    (s.events.map encodeEvent).length = s.events.length := by
  refine ⟨rfl, ?_, ?_, by simp⟩
  · simp [save, Json.lookupKey, lookupA]
  · simp [save, Json.lookupKey, lookupA]

/-! Concrete sample values used by the witnesses. -/

def ghostTrack : TrackInfo :=
  { module_info := { pid := 7, module_name := "ghost" }, tid := 3,
    track_name := "phantom" }

/-! C2 and C3: complete_event. -/

/-- Follows the spec words for C2: complete_event fails when both end_ts and
dur are supplied, when neither is supplied, or when the computed duration in
microseconds is negative. -/
def completeFailsSpec (s : TracerState) (start_ts : ℚ) (end_ts dur : Option ℚ) : Bool :=
  match end_ts, dur with
  | some _, some _ => true
  | none, none => true
  | some e, none => decide (cyclesToUs s e - cyclesToUs s start_ts < 0)
  | none, some d => decide (cyclesToUs s d < 0)

/-- C2: complete_event fails with a validation error when both of end_ts and
dur are supplied, when neither is supplied, and when the computed duration in
microseconds is negative; in every one of these failure cases the returned
state is exactly the input state (no record appended, nothing else changed). -/
theorem completeEvent_failure (s : TracerState) (tr : TrackInfo) (start_ts : ℚ)
    (end_ts dur : Option ℚ) (name : String) (cat : Option String)
    (h : completeFailsSpec s start_ts end_ts dur = true) :
    isError (completeEvent s tr start_ts end_ts dur name cat).1 = true ∧
    (completeEvent s tr start_ts end_ts dur name cat).2 = s := by
  rcases end_ts with _ | e <;> rcases dur with _ | d <;>
      simp [completeFailsSpec] at h <;>
    simp [completeEvent, isError, h]

/-- Witness for C2 at a concrete input: both end_ts and dur supplied. -/
theorem completeEvent_failure_witness :
    completeFailsSpec (mkTracer 1) 0 (some 1) (some 1) = true ∧
    (isError (completeEvent (mkTracer 1) ghostTrack 0 (some 1) (some 1) "" none).1 = true ∧
     (completeEvent (mkTracer 1) ghostTrack 0 (some 1) (some 1) "" none).2 = mkTracer 1) :=
  ⟨rfl, completeEvent_failure (mkTracer 1) ghostTrack 0 (some 1) (some 1) "" none rfl⟩

/-- C3: when complete_event succeeds, the appended Complete record has
timestamp convert(start_ts), and duration convert(end_ts) - convert(start_ts)
when end_ts was supplied, or exactly convert(dur) when dur was supplied. -/
theorem completeEvent_success_values (s : TracerState) (tr : TrackInfo)
    (start_ts : ℚ) (name : String) (cat : Option String) :
    (∀ e : ℚ, isError (completeEvent s tr start_ts (some e) none name cat).1 = false →
      (completeEvent s tr start_ts (some e) none name cat).2.events
        = s.events ++ [EventRecord.completeRec tr.pid tr.tid (cyclesToUs s start_ts)
            (cyclesToUs s e - cyclesToUs s start_ts) name cat]) ∧
    (∀ d : ℚ, isError (completeEvent s tr start_ts none (some d) name cat).1 = false →
      (completeEvent s tr start_ts none (some d) name cat).2.events
        = s.events ++ [EventRecord.completeRec tr.pid tr.tid (cyclesToUs s start_ts)
            (cyclesToUs s d) name cat]) := by
  constructor
  · intro e he
    by_cases hneg : cyclesToUs s e - cyclesToUs s start_ts < 0
    · simp [completeEvent, isError, hneg] at he
    · simp [completeEvent, isError, hneg]
  · intro d hd
    by_cases hneg : cyclesToUs s d < 0
    · simp [completeEvent, isError, hneg] at hd
    · simp [completeEvent, isError, hneg]

/-- Witness for C3 at a concrete input: start 100 cycles, end 160 cycles. -/
theorem completeEvent_success_values_witness :
    isError (completeEvent (mkTracer 1) ghostTrack 100 (some 160) none "step" none).1
      = false ∧
    (completeEvent (mkTracer 1) ghostTrack 100 (some 160) none "step" none).2.events
      = (mkTracer 1).events ++ [EventRecord.completeRec ghostTrack.pid ghostTrack.tid
          (cyclesToUs (mkTracer 1) 100)
          (cyclesToUs (mkTracer 1) 160 - cyclesToUs (mkTracer 1) 100) "step" none] := by
  have hneg : ¬ (cyclesToUs (mkTracer 1) 160 - cyclesToUs (mkTracer 1) 100 < 0) := by
    norm_num [cyclesToUs, mkTracer]
  have hok : isError
      (completeEvent (mkTracer 1) ghostTrack 100 (some 160) none "step" none).1 = false := by
    simp [completeEvent, isError, hneg]
  exact ⟨hok, (completeEvent_success_values (mkTracer 1) ghostTrack 100 "step" none).1 160 hok⟩

/-! C5: register_module idempotency. -/

theorem registerModule_of_some (s : TracerState) (name : String) (m : ModuleInfo)
    (h : lookupA s.registered_modules name = some m) :
    registerModule s name = (m, s) := by
  simp [registerModule, h]

/-- C5: registering a fresh module name twice returns the same Module value
both times, the second call changes nothing (no second identifier), and in
total exactly one process-name metadata record is appended. -/
theorem registerModule_idempotent (s : TracerState) (name : String)
    (h : lookupA s.registered_modules name = none) :
    (registerModule (registerModule s name).2 name).1 = (registerModule s name).1 ∧
    (registerModule (registerModule s name).2 name).2 = (registerModule s name).2 ∧
    (registerModule s name).2.next_pid = s.next_pid + 1 ∧
    (registerModule s name).2.events
      = s.events ++ [EventRecord.metaProcess s.next_pid name] := by
  have hm : registerModule s name
      = ({ pid := s.next_pid, module_name := name },
         { s with
           next_pid := s.next_pid + 1
           registered_modules :=
             s.registered_modules ++ [(name, { pid := s.next_pid, module_name := name })]
           events := s.events ++ [EventRecord.metaProcess s.next_pid name] }) := by
    simp [registerModule, h, insertA_of_none _ h]
  have h2 : lookupA (registerModule s name).2.registered_modules name
      = some (registerModule s name).1 := by
    rw [hm]
    exact lookupA_concat_self _ h
  have hsecond := registerModule_of_some _ _ _ h2
  refine ⟨?_, ?_, ?_, ?_⟩
  · rw [hsecond]
  · rw [hsecond]
  · rw [hm]
  · rw [hm]

/-- Witness for C5 at a concrete input: fresh tracer, module name alpha. -/
theorem registerModule_idempotent_witness :
    lookupA (mkTracer 1).registered_modules "alpha" = none ∧
    ((registerModule (registerModule (mkTracer 1) "alpha").2 "alpha").1
        = (registerModule (mkTracer 1) "alpha").1 ∧
     (registerModule (registerModule (mkTracer 1) "alpha").2 "alpha").2
        = (registerModule (mkTracer 1) "alpha").2 ∧
     (registerModule (mkTracer 1) "alpha").2.next_pid = (mkTracer 1).next_pid + 1 ∧
     (registerModule (mkTracer 1) "alpha").2.events
        = (mkTracer 1).events ++ [EventRecord.metaProcess (mkTracer 1).next_pid "alpha"]) :=
  ⟨rfl, registerModule_idempotent (mkTracer 1) "alpha" rfl⟩

/-! C1: end_event validation and stack discipline. -/

/-- Follows the spec words for C1: end_event fails exactly when the open
event stack of the track is empty, or a name is supplied that differs from
the name of the top-of-stack open event (the stack top is the last pushed
element). -/
def endEventFailsSpec (stack : List OpenEvent) (name : Option String) : Bool :=
  stack.isEmpty ||
    (match name, stack.getLast? with
     | some n, some oe => oe.name != n
     | _, _ => false)

/-- C1: for a track with a registered open-event stack, end_event fails if
and only if the stack is empty or a supplied name differs from the
top-of-stack name; on failure the whole state (stack and event log) is
unchanged, on success exactly one End record is appended and exactly one
entry is popped from the stack of that track. -/
theorem endEvent_validation (s : TracerState) (tr : TrackInfo) (ts : ℚ)
    (name : Option String) (cat : Option String) (stack : List OpenEvent)
    (h : lookupA s.open_events tr = some stack) :
    isError (endEvent s tr ts name cat).1 = endEventFailsSpec stack name ∧
    (endEventFailsSpec stack name = true → (endEvent s tr ts name cat).2 = s) ∧
    (endEventFailsSpec stack name = false →
      (endEvent s tr ts name cat).2.events
        = s.events ++ [EventRecord.endEventRec tr.pid tr.tid (cyclesToUs s ts) cat] ∧
      lookupA (endEvent s tr ts name cat).2.open_events tr = some stack.dropLast ∧
      stack.dropLast.length + 1 = stack.length) := by
  rcases hgl : stack.getLast? with _ | oe
  · have hst : stack = [] := List.getLast?_eq_none_iff.mp hgl
    subst hst
    refine ⟨?_, ?_, ?_⟩ <;> simp [endEvent, h, endEventFailsSpec, isError]
  · have hne : stack ≠ [] := by
      intro hnil
      rw [hnil] at hgl
      simp at hgl
    have hlen : stack.dropLast.length + 1 = stack.length := by
      have hpos : 0 < stack.length := List.length_pos.mpr hne
      rw [List.length_dropLast]
      omega
    have hemp : stack.isEmpty = false := by
      simp [List.isEmpty_iff, hne]
    rcases name with _ | n
    · refine ⟨?_, ?_, fun _ => ⟨?_, ?_, hlen⟩⟩ <;>
        simp [endEvent, h, hgl, endEventFailsSpec, isError, hemp,
          lookupA_updateA_self]
    · by_cases hn : oe.name = n
      · refine ⟨?_, ?_, fun _ => ⟨?_, ?_, hlen⟩⟩ <;>
          simp [endEvent, h, hgl, endEventFailsSpec, isError, hemp, hn,
            lookupA_updateA_self]
      · refine ⟨?_, ?_, ?_⟩ <;>
          simp [endEvent, h, hgl, endEventFailsSpec, isError, hemp, hn]

/-- Sample tracer: one track registered under the default module. -/
def sampleTrack : TrackInfo := (registerTrack (mkTracer 1) "runner" none).1

def sampleState : TracerState := (registerTrack (mkTracer 1) "runner" none).2

/-- Sample tracer with one open event on the sample track. -/
def sampleOpen : TracerState := (startEvent sampleState sampleTrack 10 "outer" none).2

def sampleStack : List OpenEvent :=
  [{ name := "outer", ts_us := cyclesToUs sampleState 10 }]

/-- Witness for C1 at a concrete input: one open event named outer, closed
with the matching name. -/
theorem endEvent_validation_witness :
    lookupA sampleOpen.open_events sampleTrack = some sampleStack ∧
    isError (endEvent sampleOpen sampleTrack 40 (some "outer") none).1
      = endEventFailsSpec sampleStack (some "outer") :=
  ⟨rfl,
   (endEvent_validation sampleOpen sampleTrack 40 (some "outer") none sampleStack rfl).1⟩

/-! C10: operations on a TrackInfo the tracer does not know. -/

/-- C10: with a TrackInfo never registered with this tracer, start_event
first appends the Begin record to the event log and only then fails on the
missing open-event stack, so the log is left mutated; end_event with the
same TrackInfo fails before touching anything and returns the state intact. -/
theorem unregistered_track_asymmetry (s : TracerState) (tr : TrackInfo)
    (ts1 ts2 : ℚ) (nm : String) (name2 cat1 cat2 : Option String)
    (h : lookupA s.open_events tr = none) :
    (startEvent s tr ts1 nm cat1).1 = Except.error TracerError.keyError ∧
    (startEvent s tr ts1 nm cat1).2.events
      = s.events ++ [EventRecord.beginEvent tr.pid tr.tid (cyclesToUs s ts1) nm cat1] ∧
    (startEvent s tr ts1 nm cat1).2.open_events = s.open_events ∧
    isError (endEvent s tr ts2 name2 cat2).1 = true ∧
    (endEvent s tr ts2 name2 cat2).2 = s := by
  refine ⟨?_, ?_, ?_, ?_, ?_⟩ <;> simp [startEvent, endEvent, isError, h]

/-- Witness for C10 at a concrete input: a fabricated TrackInfo on a fresh
tracer. -/
theorem unregistered_track_asymmetry_witness :
    lookupA (mkTracer 1).open_events ghostTrack = none ∧
    ((startEvent (mkTracer 1) ghostTrack 5 "ev" none).1
        = Except.error TracerError.keyError ∧
     (startEvent (mkTracer 1) ghostTrack 5 "ev" none).2.events
        = (mkTracer 1).events ++ [EventRecord.beginEvent ghostTrack.pid ghostTrack.tid
            (cyclesToUs (mkTracer 1) 5) "ev" none] ∧
     (startEvent (mkTracer 1) ghostTrack 5 "ev" none).2.open_events
        = (mkTracer 1).open_events ∧
     isError (endEvent (mkTracer 1) ghostTrack 6 none none).1 = true ∧
     (endEvent (mkTracer 1) ghostTrack 6 none none).2 = mkTracer 1) :=
  ⟨rfl, unregistered_track_asymmetry (mkTracer 1) ghostTrack 5 6 "ev" none none none rfl⟩

/-! C8: the scoped record_event helper. -/

/-- C8: for a track with a registered open-event stack, record_event emits a
Begin record with the first clock reading, runs the guarded work, and emits a
matching End record with the second clock reading on every exit path,
including when the guarded work fails; the open-event table is restored
exactly to its prior value and the outcome of the guarded work propagates
unchanged. -/
theorem recordEvent_guaranteed_end {ε : Type} (s : TracerState) (tr : TrackInfo)
    (t1 t2 : ℚ) (name : String) (cat : Option String) (work : Except ε Unit)
    (stack : List OpenEvent) (h : lookupA s.open_events tr = some stack) :
    (recordEvent s tr t1 t2 name cat work).1
      = (match work with
         | Except.ok u => Except.ok u
         | Except.error e => Except.error (Sum.inr e)) ∧
    (recordEvent s tr t1 t2 name cat work).2.events
      = s.events ++ [EventRecord.beginEvent tr.pid tr.tid (cyclesToUs s t1) name cat,
          EventRecord.endEventRec tr.pid tr.tid (cyclesToUs s t2) none] ∧
    (recordEvent s tr t1 t2 name cat work).2.open_events = s.open_events := by
  cases work <;>
    refine ⟨?_, ?_, ?_⟩ <;>
      simp [recordEvent, startEvent, endEvent, cyclesToUs, h, lookupA_updateA_self,
        List.getLast?_concat, List.dropLast_concat, updateA_updateA,
        updateA_self_eq h, isError]

/-- Witness for C8 at a concrete input: clock readings 1000 and 1600, with
guarded work that fails. -/
theorem recordEvent_guaranteed_end_witness :
    lookupA sampleState.open_events sampleTrack = some [] ∧
    ((recordEvent sampleState sampleTrack 1000 1600 "span" none
        (Except.error "boom" : Except String Unit)).1
       = Except.error (Sum.inr "boom") ∧
     (recordEvent sampleState sampleTrack 1000 1600 "span" none
        (Except.error "boom" : Except String Unit)).2.events
       = sampleState.events
           ++ [EventRecord.beginEvent sampleTrack.pid sampleTrack.tid
                 (cyclesToUs sampleState 1000) "span" none,
               EventRecord.endEventRec sampleTrack.pid sampleTrack.tid
                 (cyclesToUs sampleState 1600) none] ∧
     (recordEvent sampleState sampleTrack 1000 1600 "span" none
        (Except.error "boom" : Except String Unit)).2.open_events
       = sampleState.open_events) :=
  ⟨rfl, recordEvent_guaranteed_end sampleState sampleTrack 1000 1600 "span" none
     (Except.error "boom") [] rfl⟩

/-! C6 and C7: registry identifiers. -/

theorem registerModule_of_none {s : TracerState} {name : String}
    (h : lookupA s.registered_modules name = none) :
    registerModule s name
      = ({ pid := s.next_pid, module_name := name },
         { s with
           next_pid := s.next_pid + 1
           registered_modules :=
             s.registered_modules ++ [(name, { pid := s.next_pid, module_name := name })]
           events := s.events ++ [EventRecord.metaProcess s.next_pid name] }) := by
  simp [registerModule, h, insertA_of_none _ h]

theorem registerTrack_some_hit {s : TracerState} {tname : String} {mi : ModuleInfo}
    {t : TrackInfo}
    (hl : lookupA s.registered_tracks (mi.module_name ++ "." ++ tname) = some t) :
    registerTrack s tname (some mi) = (t, s) := by
  simp [registerTrack, hl]

theorem registerTrack_some_miss {s : TracerState} {tname : String} {mi : ModuleInfo}
    (hl : lookupA s.registered_tracks (mi.module_name ++ "." ++ tname) = none) :
    registerTrack s tname (some mi)
      = ({ module_info := mi, tid := s.next_tid, track_name := tname },
         { s with
           next_tid := s.next_tid + 1
           registered_tracks := s.registered_tracks ++
             [(mi.module_name ++ "." ++ tname,
               { module_info := mi, tid := s.next_tid, track_name := tname })]
           open_events := insertA s.open_events
             { module_info := mi, tid := s.next_tid, track_name := tname } []
           events := s.events ++ [EventRecord.metaThread mi.pid s.next_tid tname] }) := by
  simp [registerTrack, hl, insertA_of_none _ hl]

theorem registerTrack_none_eq (s : TracerState) (tname : String) :
    registerTrack s tname none
      = registerTrack (registerModule s "default").2 tname
          (some (registerModule s "default").1) := rfl

def intRange (base : Int) (n : Nat) : List Int :=
  (List.range n).map (fun (i : Nat) => base + (i : Int))

theorem intRange_succ (base : Int) (n : Nat) :
    intRange base (n + 1) = intRange base n ++ [base + n] := by
  simp [intRange, List.range_succ]

theorem intRange_nodup (base : Int) (n : Nat) : (intRange base n).Nodup := by
  unfold intRange
  refine (List.nodup_range n).map ?_
  intro a b hab
  simp only [] at hab
  omega

theorem intRange_mem_lt {base : Int} {n : Nat} {x : Int} (hx : x ∈ intRange base n) :
    x < base + n := by
  simp only [intRange, List.mem_map, List.mem_range] at hx
  obtain ⟨i, hi, rfl⟩ := hx
  omega

/-- The registry counter invariant: module identifiers are exactly
100000, 100001, ... in registration order, track identifiers are exactly
1000, 1001, ... in registration order, and the two counters sit one past
their respective last allocations. -/
def CounterInv (s : TracerState) : Prop :=
  s.registered_modules.map (fun p => p.2.pid)
      = intRange 100000 s.registered_modules.length ∧
  s.registered_tracks.map (fun p => p.2.tid)
      = intRange 1000 s.registered_tracks.length ∧
  s.next_pid = 100000 + (s.registered_modules.length : Int) ∧
  s.next_tid = 1000 + (s.registered_tracks.length : Int)

theorem counterInv_mkTracer (q : ℚ) : CounterInv (mkTracer q) :=
  ⟨rfl, rfl, rfl, rfl⟩

theorem counterInv_registerModule (s : TracerState) (name : String)
    (hinv : CounterInv s) : CounterInv (registerModule s name).2 := by
  obtain ⟨h1, h2, h3, h4⟩ := hinv
  rcases hl : lookupA s.registered_modules name with _ | m
  · rw [registerModule_of_none hl]
    refine ⟨?_, h2, ?_, h4⟩
    · simp only [List.map_append, List.length_append, List.map_cons, List.map_nil,
        List.length_cons, List.length_nil, h1, h3]
      simp [intRange_succ]
    · simp only [List.length_append, List.length_cons, List.length_nil, h3]
      push_cast
      ring
  · rw [registerModule_of_some _ _ _ hl]
    exact ⟨h1, h2, h3, h4⟩

theorem counterInv_registerTrack_some (s : TracerState) (tname : String)
    (mi : ModuleInfo) (hinv : CounterInv s) :
    CounterInv (registerTrack s tname (some mi)).2 := by
  obtain ⟨h1, h2, h3, h4⟩ := hinv
  rcases hl : lookupA s.registered_tracks (mi.module_name ++ "." ++ tname) with _ | t
  · rw [registerTrack_some_miss hl]
    refine ⟨h1, ?_, h3, ?_⟩
    · simp only [List.map_append, List.length_append, List.map_cons, List.map_nil,
        List.length_cons, List.length_nil, h2, h4]
      simp [intRange_succ]
    · simp only [List.length_append, List.length_cons, List.length_nil, h4]
      push_cast
      ring
  · rw [registerTrack_some_hit hl]
    exact ⟨h1, h2, h3, h4⟩

theorem counterInv_registerTrack (s : TracerState) (tname : String)
    (mi? : Option ModuleInfo) (hinv : CounterInv s) :
    CounterInv (registerTrack s tname mi?).2 := by
  cases mi? with
  | some mi => exact counterInv_registerTrack_some s tname mi hinv
  | none =>
    rw [registerTrack_none_eq]
    exact counterInv_registerTrack_some _ _ _
      (counterInv_registerModule s "default" hinv)

/-- One registry call: register a module by name, or register a track under
a named module (resolving that module through the registry first, as the
callers of the library do), or under the default module. -/
inductive RegOp where
  | rmod (name : String)
  | rtrack (track_name : String) (module_name : Option String)

def applyRegOp (s : TracerState) : RegOp → TracerState
  | RegOp.rmod n => (registerModule s n).2
  | RegOp.rtrack t none => (registerTrack s t none).2
  | RegOp.rtrack t (some m) =>
    let r := registerModule s m
    (registerTrack r.2 t (some r.1)).2

def runRegOps (s : TracerState) (ops : List RegOp) : TracerState :=
  ops.foldl applyRegOp s

theorem counterInv_applyRegOp (s : TracerState) (op : RegOp)
    (hinv : CounterInv s) : CounterInv (applyRegOp s op) := by
  cases op with
  | rmod n => exact counterInv_registerModule s n hinv
  | rtrack t m? =>
    cases m? with
    | none => exact counterInv_registerTrack s t none hinv
    | some m =>
      exact counterInv_registerTrack_some _ _ _ (counterInv_registerModule s m hinv)

theorem counterInv_runRegOps (s : TracerState) (ops : List RegOp)
    (hinv : CounterInv s) : CounterInv (runRegOps s ops) := by
  induction ops generalizing s with
  | nil => exact hinv
  | cons op rest ih => exact ih _ (counterInv_applyRegOp s op hinv)

/-- C7: after any sequence of registry operations on a fresh tracer, the
module identifiers are exactly 100000, 100001, ... in registration order and
the track identifiers are exactly 1000, 1001, ... in registration order
(each counter incrementing by one per new registration), hence both families
are pairwise distinct. -/
theorem registry_identifier_uniqueness (q : ℚ) (ops : List RegOp) :
    ((runRegOps (mkTracer q) ops).registered_modules.map (fun p => p.2.pid))
      = intRange 100000 (runRegOps (mkTracer q) ops).registered_modules.length ∧
    ((runRegOps (mkTracer q) ops).registered_tracks.map (fun p => p.2.tid))
      = intRange 1000 (runRegOps (mkTracer q) ops).registered_tracks.length ∧
    ((runRegOps (mkTracer q) ops).registered_modules.map (fun p => p.2.pid)).Nodup ∧
    ((runRegOps (mkTracer q) ops).registered_tracks.map (fun p => p.2.tid)).Nodup := by
  obtain ⟨h1, h2, h3, h4⟩ := counterInv_runRegOps (mkTracer q) ops (counterInv_mkTracer q)
  refine ⟨h1, h2, ?_, ?_⟩
  · rw [h1]
    exact intRange_nodup _ _
  · rw [h2]
    exact intRange_nodup _ _

theorem lookupA_tid_mem {l : List (String × TrackInfo)} {a : String} {b : TrackInfo}
    (h : lookupA l a = some b) : b.tid ∈ l.map (fun p => p.2.tid) :=
  List.mem_map_of_mem _ (lookupA_mem h)

theorem counterInv_tid_lt {s : TracerState} (hinv : CounterInv s) {k : String}
    {t : TrackInfo} (h : lookupA s.registered_tracks k = some t) :
    t.tid < s.next_tid := by
  obtain ⟨-, h2, -, h4⟩ := hinv
  have hm := lookupA_tid_mem h
  rw [h2] at hm
  rw [h4]
  exact intRange_mem_lt hm

theorem lookupA_tid_ne (l : List (String × TrackInfo))
    (hnd : (l.map (fun p => p.2.tid)).Nodup) {a1 a2 : String} {b1 b2 : TrackInfo}
    (h1 : lookupA l a1 = some b1) (h2 : lookupA l a2 = some b2)
    (hne : a1 ≠ a2) : b1.tid ≠ b2.tid := by
  induction l with
  | nil => simp [lookupA] at h1
  | cons p rest ih =>
    obtain ⟨k, v⟩ := p
    simp only [List.map_cons, List.nodup_cons] at hnd
    obtain ⟨hv, hrest⟩ := hnd
    by_cases hk1 : k = a1
    · subst hk1
      simp [lookupA] at h1
      subst h1
      simp only [lookupA, hne, if_false] at h2
      intro heq
      exact hv (by rw [heq]; exact lookupA_tid_mem h2)
    · by_cases hk2 : k = a2
      · subst hk2
        simp [lookupA] at h2
        subst h2
        simp only [lookupA, hk1, if_false] at h1
        intro heq
        exact hv (by rw [← heq]; exact lookupA_tid_mem h1)
      · simp only [lookupA, hk1, if_false] at h1
        simp only [lookupA, hk2, if_false] at h2
        exact ih hrest h1 h2

theorem string_append_right_cancel {a b c : String} (h : a ++ c = b ++ c) : a = b := by
  have hd : a.data ++ c.data = b.data ++ c.data := by
    have hh := congrArg String.data h
    simpa [String.data_append] using hh
  have hab := List.append_cancel_right hd
  cases a
  cases b
  exact congrArg String.mk hab

theorem track_key_ne {m1 m2 : ModuleInfo} (t : String)
    (hm : m1.module_name ≠ m2.module_name) :
    m1.module_name ++ "." ++ t ≠ m2.module_name ++ "." ++ t := by
  intro he
  apply hm
  have h1 : m1.module_name ++ "." = m2.module_name ++ "." :=
    string_append_right_cancel he
  exact string_append_right_cancel h1

/-- C6: register_track is idempotent per (module name, track name) composite
key — registering the same pair again returns the originally created Track
and changes nothing (no new identifier, no new metadata record) — and two
modules with different names that each register a track of the same name
receive distinct Tracks. -/
theorem registerTrack_idempotent_distinct (s : TracerState) (hinv : CounterInv s)
    (m1 m2 : ModuleInfo) (tname : String) (hm : m1.module_name ≠ m2.module_name) :
    (∀ (mi : ModuleInfo) (nm : String),
      (registerTrack (registerTrack s nm (some mi)).2 nm (some mi)).1
        = (registerTrack s nm (some mi)).1 ∧
      (registerTrack (registerTrack s nm (some mi)).2 nm (some mi)).2
        = (registerTrack s nm (some mi)).2) ∧
    (registerTrack (registerTrack s tname (some m1)).2 tname (some m2)).1
      ≠ (registerTrack s tname (some m1)).1 := by
  constructor
  · intro mi nm
    rcases hl : lookupA s.registered_tracks (mi.module_name ++ "." ++ nm) with _ | t
    · have hfirst := registerTrack_some_miss hl
      have hl2 : lookupA (registerTrack s nm (some mi)).2.registered_tracks
          (mi.module_name ++ "." ++ nm) = some (registerTrack s nm (some mi)).1 := by
        rw [hfirst]
        exact lookupA_concat_self _ hl
      have hsecond := registerTrack_some_hit hl2
      exact ⟨by rw [hsecond], by rw [hsecond]⟩
    · have hfirst := registerTrack_some_hit hl
      have hl2 : lookupA (registerTrack s nm (some mi)).2.registered_tracks
          (mi.module_name ++ "." ++ nm) = some (registerTrack s nm (some mi)).1 := by
        rw [hfirst]
        exact hl
      have hsecond := registerTrack_some_hit hl2
      exact ⟨by rw [hsecond], by rw [hsecond]⟩
  · have hkey := track_key_ne tname hm
    rcases hl1 : lookupA s.registered_tracks (m1.module_name ++ "." ++ tname) with _ | t1
    · have hfirst := registerTrack_some_miss hl1
      rcases hl2 : lookupA s.registered_tracks (m2.module_name ++ "." ++ tname) with _ | t2
      · have hl2m : lookupA (registerTrack s tname (some m1)).2.registered_tracks
            (m2.module_name ++ "." ++ tname) = none := by
          rw [hfirst]
          rw [lookupA_append_of_none _ hl2]
          simp [lookupA, hkey]
        have hsecond := registerTrack_some_miss hl2m
        intro heq
        rw [hsecond, hfirst] at heq
        have htid := congrArg TrackInfo.tid heq
        dsimp only at htid
        omega
      · have hl2m : lookupA (registerTrack s tname (some m1)).2.registered_tracks
            (m2.module_name ++ "." ++ tname) = some t2 := by
          rw [hfirst]
          exact lookupA_append_of_some _ hl2
        have hsecond := registerTrack_some_hit hl2m
        have hlt := counterInv_tid_lt hinv hl2
        intro heq
        rw [hsecond, hfirst] at heq
        have htid := congrArg TrackInfo.tid heq
        dsimp only at htid
        omega
    · have hfirst := registerTrack_some_hit hl1
      have hlt := counterInv_tid_lt hinv hl1
      rcases hl2 : lookupA s.registered_tracks (m2.module_name ++ "." ++ tname) with _ | t2
      · have hl2m : lookupA (registerTrack s tname (some m1)).2.registered_tracks
            (m2.module_name ++ "." ++ tname) = none := by
          rw [hfirst]
          exact hl2
        have hsecond := registerTrack_some_miss hl2m
        intro heq
        rw [hsecond, hfirst] at heq
        have htid := congrArg TrackInfo.tid heq
        dsimp only at htid
        omega
      · have hl2m : lookupA (registerTrack s tname (some m1)).2.registered_tracks
            (m2.module_name ++ "." ++ tname) = some t2 := by
          rw [hfirst]
          exact hl2
        have hsecond := registerTrack_some_hit hl2m
        intro heq
        rw [hsecond, hfirst] at heq
        dsimp only at heq
        have htid : t2.tid = t1.tid := congrArg TrackInfo.tid heq
        obtain ⟨-, h2, -, -⟩ := hinv
        have hnd : (s.registered_tracks.map (fun p => p.2.tid)).Nodup := by
          rw [h2]
          exact intRange_nodup _ _
        exact lookupA_tid_ne s.registered_tracks hnd hl2 hl1
          (fun hk => hkey hk.symm) htid

/-- Witness for C6 at a concrete input: fresh tracer, modules named a and b,
track name t under each. -/
theorem registerTrack_idempotent_distinct_witness :
    CounterInv (mkTracer 1) ∧
    (ModuleInfo.mk 5 "a").module_name ≠ (ModuleInfo.mk 6 "b").module_name ∧
    (registerTrack (registerTrack (mkTracer 1) "t" (some (ModuleInfo.mk 5 "a"))).2 "t"
        (some (ModuleInfo.mk 6 "b"))).1
      ≠ (registerTrack (mkTracer 1) "t" (some (ModuleInfo.mk 5 "a"))).1 := by
  have hinv : CounterInv (mkTracer 1) := counterInv_mkTracer 1
  have hm : (ModuleInfo.mk 5 "a").module_name ≠ (ModuleInfo.mk 6 "b").module_name := by
    decide
  exact ⟨hinv, hm,
    (registerTrack_idempotent_distinct (mkTracer 1) hinv
      (ModuleInfo.mk 5 "a") (ModuleInfo.mk 6 "b") "t" hm).2⟩

end PerfTracer
